import Mathlib

/-!
Verification development for the descriptor-storage sub-allocator and
fence-gated descriptor-set cache of the Nabla engine.

The embedding covers:
* `nbl::video::IDescriptorPool` (include/nbl/video/IDescriptorPool.h):
  `SDescriptorOffsets`, `allocator_state_t`, the constructor's
  `m_maxDescriptorCount` accumulation and storage-array sizing.
* the per-kind address allocators (`core::LinearAddressAllocator`,
  `core::GeneralpurposeAddressAllocator`), whose headers are not among the
  provided sources; they are modelled from the spec, section 4.1.
* `IDescriptorPool::createDescriptorSets` / `allocateDescriptorOffsets`, whose
  translation unit is not among the provided sources; modelled from the spec,
  sections 4.2 and 7.
* `video::IDescriptorSetCache` (modelled from the spec, section 4.3) and the
  code that consumes it in `nbl::scene::ITransformTreeManager`
  (include/nbl/scene/ITransformTreeManager.h).

Machine integers are modelled as `Nat` with an explicit modulus where the
source performs `uint32_t` arithmetic that can wrap.
-/

namespace NblDescriptor

/-- Cardinality of `uint32_t`; `uint32_t` arithmetic is `Nat` arithmetic
modulo this constant. -/
def UINT32_CARD : Nat := 2 ^ 32

/-- The all-bits-set `uint32_t` value `~0u`, used by the source both as
`SDescriptorOffsets`' sentinel (IDescriptorPool.h line 47) and as the address
allocators' `invalid_address`. -/
def invalid_address : Nat := UINT32_CARD - 1

/-- Modelled from the spec: the closed enumeration of binding kinds
(`asset::IDescriptor::E_TYPE`, spec section 3). Its defining header is not
among the provided sources; the enumerator set is reconstructed from the
enumerators IDescriptorPool.h uses plus the storage-texel-buffer kind the spec
names. -/
inductive E_TYPE where
  | ET_COMBINED_IMAGE_SAMPLER
  | ET_STORAGE_IMAGE
  | ET_UNIFORM_TEXEL_BUFFER
  | ET_STORAGE_TEXEL_BUFFER
  | ET_UNIFORM_BUFFER
  | ET_STORAGE_BUFFER
  | ET_UNIFORM_BUFFER_DYNAMIC
  | ET_STORAGE_BUFFER_DYNAMIC
  | ET_INPUT_ATTACHMENT
  | ET_ACCELERATION_STRUCTURE
  deriving DecidableEq, Repr, Fintype

/-- Number of binding kinds, `static_cast<uint32_t>(E_TYPE::ET_COUNT)`. -/
def ET_COUNT : Nat := 10

/-- The integer value of each enumerator (the `static_cast<uint32_t>` the
source applies when indexing arrays with an `E_TYPE`). -/
def E_TYPE.toIndex : E_TYPE → Nat
  | .ET_COMBINED_IMAGE_SAMPLER => 0
  | .ET_STORAGE_IMAGE => 1
  | .ET_UNIFORM_TEXEL_BUFFER => 2
  | .ET_STORAGE_TEXEL_BUFFER => 3
  | .ET_UNIFORM_BUFFER => 4
  | .ET_STORAGE_BUFFER => 5
  | .ET_UNIFORM_BUFFER_DYNAMIC => 6
  | .ET_STORAGE_BUFFER_DYNAMIC => 7
  | .ET_INPUT_ATTACHMENT => 8
  | .ET_ACCELERATION_STRUCTURE => 9

/-- All binding kinds, in enumerator order; the order of the constructor's
loop `for (i = 0; i < ET_COUNT; ++i)`. -/
def E_TYPE.all : List E_TYPE :=
  [.ET_COMBINED_IMAGE_SAMPLER, .ET_STORAGE_IMAGE, .ET_UNIFORM_TEXEL_BUFFER,
   .ET_STORAGE_TEXEL_BUFFER, .ET_UNIFORM_BUFFER, .ET_STORAGE_BUFFER,
   .ET_UNIFORM_BUFFER_DYNAMIC, .ET_STORAGE_BUFFER_DYNAMIC,
   .ET_INPUT_ATTACHMENT, .ET_ACCELERATION_STRUCTURE]

/-! ## Per-kind address allocators (spec section 4.1) -/

/-- Modelled from the spec: `core::LinearAddressAllocator<uint32_t>` in the
configuration the pool uses (offset 0, alignment 1). Non-reclaiming bump
allocation: a monotone cursor over a fixed capacity (spec section 4.1). -/
structure LinearAddressAllocator where
  capacity : Nat
  cursor : Nat
  deriving DecidableEq, Repr

/-- Modelled from the spec: bump allocation. Advances the cursor when the
request fits, otherwise fails returning `none` (the source's
`invalid_address`) without mutating any state; a `count == 0` request is a
no-op success (spec section 4.1). -/
def LinearAddressAllocator.alloc_addr (a : LinearAddressAllocator) (count : Nat) :
    Option Nat × LinearAddressAllocator :=
  if a.cursor + count ≤ a.capacity then
    (some a.cursor, { a with cursor := a.cursor + count })
  else
    (none, a)

/-- Modelled from the spec: `core::GeneralpurposeAddressAllocator<uint32_t>`
in the configuration the pool uses (offset 0, alignment 1). Reclaiming
free-list allocation over a fixed capacity: the state is the list of free
ranges, kept as `(offset, size)` pairs with positive size (spec section 4.1). -/
structure GeneralpurposeAddressAllocator where
  capacity : Nat
  freeRanges : List (Nat × Nat)
  deriving DecidableEq, Repr

/-- Sum of the sizes of a free-range list; `capacity - sumFree` is the
outstanding (currently allocated) count. -/
def sumFree : List (Nat × Nat) → Nat
  | [] => 0
  | r :: rest => r.2 + sumFree rest

/-- Modelled from the spec: first-fit search. Returns the chosen offset and
the free-range list with the served prefix of the chosen range removed;
`none` when no single free range fits (spec section 4.1). -/
def allocFit : List (Nat × Nat) → Nat → Option (Nat × List (Nat × Nat))
  | [], _ => none
  | (off, sz) :: rest, count =>
    if count ≤ sz then
      some (off, if count < sz then (off + count, sz - count) :: rest else rest)
    else
      match allocFit rest count with
      | some (o, rest') => some (o, (off, sz) :: rest')
      | none => none

/-- Modelled from the spec: reclaiming allocation. A `count == 0` request is
a no-op success; failure (no fitting free range) does not mutate state
(spec section 4.1). -/
def GeneralpurposeAddressAllocator.alloc_addr (g : GeneralpurposeAddressAllocator)
    (count : Nat) : Option Nat × GeneralpurposeAddressAllocator :=
  if count = 0 then
    (some 0, g)
  else
    match allocFit g.freeRanges count with
    | some (off, ranges') => (some off, { g with freeRanges := ranges' })
    | none => (none, g)

/-- Modelled from the spec: insertion of a freed range into an offset-sorted
free-range list, coalescing with an adjacent neighbour where possible
(spec section 4.1). -/
def insertRange (off count : Nat) : List (Nat × Nat) → List (Nat × Nat)
  | [] => [(off, count)]
  | (o, s) :: rest =>
    if off + count < o then (off, count) :: (o, s) :: rest
    else if off + count = o then (off, count + s) :: rest
    else if o + s = off then insertRange o (s + count) rest
    else (o, s) :: insertRange off count rest

/-- Modelled from the spec: returning a range to the free set
(spec section 4.1). -/
def GeneralpurposeAddressAllocator.free_addr (g : GeneralpurposeAddressAllocator)
    (off count : Nat) : GeneralpurposeAddressAllocator :=
  { g with freeRanges := insertRange off count g.freeRanges }

/-! ## allocator_state_t (IDescriptorPool.h lines 109-154) -/

/-- The active member of `allocator_state_t`'s anonymous union
(IDescriptorPool.h lines 148-152). When `maxDescriptorCount == 0` the
constructor returns before constructing either member, so neither is active. -/
inductive AllocatorUnion where
  | uninitialized
  | linearAllocator (a : LinearAddressAllocator)
  | generalAllocator (g : GeneralpurposeAddressAllocator)
  deriving DecidableEq, Repr

/-- Embeds `IDescriptorPool::allocator_state_t` (IDescriptorPool.h lines
109-154): the union of the two allocators plus the
`generalAllocatorReservedSpace` pointer, modelled by whether it is non-null. -/
structure allocator_state_t where
  impl : AllocatorUnion
  generalAllocatorReservedSpace : Bool
  deriving DecidableEq, Repr

/-- Embeds the `allocator_state_t` constructor (IDescriptorPool.h lines
111-125): early-out on zero capacity, otherwise construct the general-purpose
allocator (and its reserved space) when freeing is allowed, else the linear
allocator. -/
def allocator_state_t.construct (maxDescriptorCount : Nat) (allowsFreeing : Bool) :
    allocator_state_t :=
  if maxDescriptorCount = 0 then
    { impl := .uninitialized, generalAllocatorReservedSpace := false }
  else if allowsFreeing then
    { impl := .generalAllocator ⟨maxDescriptorCount, [(0, maxDescriptorCount)]⟩,
      generalAllocatorReservedSpace := true }
  else
    { impl := .linearAllocator ⟨maxDescriptorCount, 0⟩,
      generalAllocatorReservedSpace := false }

/-- Ways an `allocator_state_t` operation aborts instead of returning:
a failed `assert`, or reading a union member that is not the active one
(undefined behaviour in the source, modelled as a hard fault). -/
inductive UnionFault where
  | assertionFailure
  | inactiveUnionMemberRead
  deriving DecidableEq, Repr

/-- Embeds `allocator_state_t::allocate` (IDescriptorPool.h lines 129-140):
dispatch on the caller-supplied `allowsFreeing`; the reclaiming path asserts
`generalAllocatorReservedSpace` before using the general-purpose member. The
returned `Option Nat` is the offset, `none` standing for `invalid_address`. -/
def allocator_state_t.allocate (st : allocator_state_t) (count : Nat)
    (allowsFreeing : Bool) : Except UnionFault (Option Nat × allocator_state_t) :=
  if allowsFreeing then
    if st.generalAllocatorReservedSpace then
      match st.impl with
      | .generalAllocator g =>
        .ok ((g.alloc_addr count).1,
             { st with impl := .generalAllocator (g.alloc_addr count).2 })
      | _ => .error .inactiveUnionMemberRead
    else
      .error .assertionFailure
  else
    match st.impl with
    | .linearAllocator a =>
      .ok ((a.alloc_addr count).1,
           { st with impl := .linearAllocator (a.alloc_addr count).2 })
    | _ => .error .inactiveUnionMemberRead

/-- Embeds `allocator_state_t::free` (IDescriptorPool.h lines 142-146):
asserts `generalAllocatorReservedSpace`, then frees through the
general-purpose member. -/
def allocator_state_t.free (st : allocator_state_t) (allocatedOffset count : Nat) :
    Except UnionFault allocator_state_t :=
  if st.generalAllocatorReservedSpace then
    match st.impl with
    | .generalAllocator g =>
      .ok { st with impl := .generalAllocator (g.free_addr allocatedOffset count) }
    | _ => .error .inactiveUnionMemberRead
  else
    .error .assertionFailure

/-- Discriminant of the union's active member; `allocator_state_t` has no such
field in the source (the mode is implied by construction), so this is the
observer the invariants are stated with. -/
def AllocatorUnion.modeIndex : AllocatorUnion → Nat
  | .uninitialized => 0
  | .linearAllocator _ => 1
  | .generalAllocator _ => 2

/-- Outstanding allocation count of one allocator: the linear cursor, or
capacity minus the free-range total. -/
def allocator_state_t.outstanding (st : allocator_state_t) : Nat :=
  match st.impl with
  | .uninitialized => 0
  | .linearAllocator a => a.cursor
  | .generalAllocator g => g.capacity - sumFree g.freeRanges

/-! ## IDescriptorPool constructor (IDescriptorPool.h lines 71-91) -/

/-- Embeds `IDescriptorPool::SDescriptorPoolSize` (IDescriptorPool.h lines
35-39). -/
structure SDescriptorPoolSize where
  type : E_TYPE
  count : Nat
  deriving DecidableEq, Repr

/-- Embeds `E_CREATE_FLAGS::ECF_FREE_DESCRIPTOR_SET_BIT = 0x01`
(IDescriptorPool.h line 30). -/
def ECF_FREE_DESCRIPTOR_SET_BIT : Nat := 1

/-- The boolean `m_flags & ECF_FREE_DESCRIPTOR_SET_BIT` every allocator
construction and allocate call receives (IDescriptorPool.h lines 79, 82). -/
def poolAllowsFreeing (flags : Nat) : Bool :=
  (flags &&& ECF_FREE_DESCRIPTOR_SET_BIT) != 0

/-- One iteration of the constructor's accumulation loop
`m_maxDescriptorCount[poolSizes[i].type] += poolSizes[i].count`
(IDescriptorPool.h line 76), with `uint32_t` wrap-around made explicit. -/
def accumulatePoolSize (arr : List Nat) (p : SDescriptorPoolSize) : List Nat :=
  arr.set p.type.toIndex ((arr.getD p.type.toIndex 0 + p.count) % UINT32_CARD)

/-- Embeds the construction of `m_maxDescriptorCount`: zero-fill of the
`ET_COUNT`-element array followed by the accumulation loop
(IDescriptorPool.h lines 73-76). -/
def mkMaxDescriptorCount (poolSizes : List SDescriptorPoolSize) : List Nat :=
  poolSizes.foldl accumulatePoolSize (List.replicate ET_COUNT 0)

/-- Sum of the `count` fields of all pool-size requests naming kind `k`. -/
def kindSum (k : E_TYPE) : List SDescriptorPoolSize → Nat
  | [] => 0
  | p :: rest => (if p.type = k then p.count else 0) + kindSum k rest

/-- The per-kind capacity the constructed pool records, read as the source
reads it: `m_maxDescriptorCount[static_cast<uint32_t>(kind)]`. -/
def maxDescriptorCountOf (ps : List SDescriptorPoolSize) (k : E_TYPE) : Nat :=
  (mkMaxDescriptorCount ps).getD k.toIndex 0

/-! ## Constructor-derived storage sizes (IDescriptorPool.h lines 85-90) -/

/-- Embeds the element count of `m_storageImageStorage` exactly as the
constructor computes it (IDescriptorPool.h line 87):
`maxCount[storage-image] + maxCount[input-attachment]`, in `uint32_t`
arithmetic. -/
def m_storageImageStorage_length (ps : List SDescriptorPoolSize) : Nat :=
  (maxDescriptorCountOf ps .ET_STORAGE_IMAGE +
   maxDescriptorCountOf ps .ET_INPUT_ATTACHMENT) % UINT32_CARD

/-- Embeds the element count of `m_UTB_STBStorage` exactly as the constructor
computes it (IDescriptorPool.h line 89): the second summand the code reads is
`maxCount[ET_STORAGE_BUFFER_DYNAMIC]`. -/
def m_UTB_STBStorage_length (ps : List SDescriptorPoolSize) : Nat :=
  (maxDescriptorCountOf ps .ET_UNIFORM_TEXEL_BUFFER +
   maxDescriptorCountOf ps .ET_STORAGE_BUFFER_DYNAMIC) % UINT32_CARD

/-- The element count the spec (and the member's own comment `utb | stb`,
IDescriptorPool.h line 161) assigns to `m_UTB_STBStorage`:
`maxCount[uniform-texel-buffer] + maxCount[storage-texel-buffer]`. This
definition follows the spec's words, for comparison against
`m_UTB_STBStorage_length` which follows the code. -/
def specified_UTB_STBStorage_length (ps : List SDescriptorPoolSize) : Nat :=
  (maxDescriptorCountOf ps .ET_UNIFORM_TEXEL_BUFFER +
   maxDescriptorCountOf ps .ET_STORAGE_TEXEL_BUFFER) % UINT32_CARD

/-- The checked read of `m_maxDescriptorCount[ET_COUNT]` that line 82 of
IDescriptorPool.h performs to obtain the capacity for the extra
mutable-sampler allocator: `none` means the index is outside the array. -/
def mutableSamplerCapacityRead (ps : List SDescriptorPoolSize) : Option Nat :=
  (mkMaxDescriptorCount ps).get? ET_COUNT

/-! ## SDescriptorOffsets (IDescriptorPool.h lines 41-51) -/

/-- Embeds the `SDescriptorOffsets` default constructor
(IDescriptorPool.h lines 43-48): all `ET_COUNT + 1` entries filled
with `~0u`. -/
def SDescriptorOffsets_default : List Nat :=
  List.replicate (ET_COUNT + 1) invalid_address

/-! ## Pool model and the multi-set allocation path -/

/-- The pool state the offset-allocation path operates on: the construction
flags (`m_flags`, const in the source) and the per-kind allocator states
(`m_descriptorAllocators`, represented as a total map over kinds). -/
structure IDescriptorPoolModel where
  flags : Nat
  allocators : E_TYPE → allocator_state_t

/-- Embeds the constructor's allocator setup (IDescriptorPool.h lines 78-79):
each kind's allocator is built over `m_maxDescriptorCount[i]` with
`m_flags & ECF_FREE_DESCRIPTOR_SET_BIT`. -/
def IDescriptorPoolModel.construct (flags : Nat) (poolSizes : List SDescriptorPoolSize) :
    IDescriptorPoolModel :=
  { flags := flags,
    allocators := fun k =>
      allocator_state_t.construct (maxDescriptorCountOf poolSizes k)
        (poolAllowsFreeing flags) }

/-- Replace one kind's allocator state. -/
def IDescriptorPoolModel.setAllocator (pool : IDescriptorPoolModel) (k : E_TYPE)
    (st : allocator_state_t) : IDescriptorPoolModel :=
  { pool with allocators := fun j => if j = k then st else pool.allocators j }

/-- Per-kind outstanding allocation count of the pool. -/
def IDescriptorPoolModel.outstanding (pool : IDescriptorPoolModel) (k : E_TYPE) : Nat :=
  (pool.allocators k).outstanding

/-- One allocate call as the pool issues it, always passing the pool's own
const `m_flags & ECF_FREE_DESCRIPTOR_SET_BIT`; a faulting or failing call
leaves the pool unchanged. -/
def IDescriptorPoolModel.allocStep (pool : IDescriptorPoolModel)
    (op : E_TYPE × Nat) : IDescriptorPoolModel :=
  match (pool.allocators op.1).allocate op.2 (poolAllowsFreeing pool.flags) with
  | .ok (_, st') => pool.setAllocator op.1 st'
  | .error _ => pool

/-- A sequence of allocate calls issued by the pool against its per-kind
allocators. -/
def IDescriptorPoolModel.applyAllocs (pool : IDescriptorPoolModel)
    (ops : List (E_TYPE × Nat)) : IDescriptorPoolModel :=
  ops.foldl IDescriptorPoolModel.allocStep pool

/-- Total per-kind descriptor demand of a binding-set layout, given as its
binding list; modelled from the spec (section 4.2: walk the layout's
bindings, accumulate required count per kind). -/
def layoutDemand (layout : List (E_TYPE × Nat)) (k : E_TYPE) : Nat :=
  match layout with
  | [] => 0
  | b :: rest => (if b.1 = k then b.2 else 0) + layoutDemand rest k

/-- Count allocated for kind `k` according to an allocation log of
`(kind, offset, count)` entries. -/
def logSum (k : E_TYPE) : List (E_TYPE × Nat × Nat) → Nat
  | [] => 0
  | e :: rest => (if e.1 = k then e.2.2 else 0) + logSum k rest

/-- Modelled from the spec: the per-kind walk of
`IDescriptorPool::allocateDescriptorOffsets` (spec section 4.2): for each kind
the layout needs, call that kind's allocator once with the total count; kinds
with zero demand are skipped, leaving their offset at the sentinel. Allocation
failure aborts the walk, handing the accumulated log to the caller for
rollback. -/
def allocateKindsGo :
    List E_TYPE → IDescriptorPoolModel → (E_TYPE → Nat) → List Nat →
    List (E_TYPE × Nat × Nat) →
    Except UnionFault
      (Option (List Nat) × IDescriptorPoolModel × List (E_TYPE × Nat × Nat))
  | [], pool, _, offsets, log => .ok (some offsets, pool, log)
  | k :: rest, pool, demand, offsets, log =>
    if demand k = 0 then
      allocateKindsGo rest pool demand offsets log
    else
      match (pool.allocators k).allocate (demand k) (poolAllowsFreeing pool.flags) with
      | .error e => .error e
      | .ok (none, st') => .ok (none, pool.setAllocator k st', log)
      | .ok (some off, st') =>
        allocateKindsGo rest (pool.setAllocator k st') demand
          (offsets.set k.toIndex off) (log ++ [(k, off, demand k)])

/-- Modelled from the spec: `IDescriptorPool::allocateDescriptorOffsets`
(declared at IDescriptorPool.h line 103, its translation unit not among the
provided sources): offsets start at the `SDescriptorOffsets` sentinel table
and the kinds are walked in enumerator order (spec section 4.2). -/
def allocateDescriptorOffsets (pool : IDescriptorPoolModel)
    (layout : List (E_TYPE × Nat)) :
    Except UnionFault
      (Option (List Nat) × IDescriptorPoolModel × List (E_TYPE × Nat × Nat)) :=
  allocateKindsGo E_TYPE.all pool (layoutDemand layout) SDescriptorOffsets_default []

/-- Modelled from the spec: undoing one logged allocation during rollback.
For a reclaiming allocator this is `free_addr` on the general-purpose member
(spec section 4.2: offsets already allocated "must be rolled back (freed)");
for the non-reclaiming allocator, on which the pool never calls `free` (spec
section 4.1), the only undo a bump cursor admits is rewinding it by the
allocated count, which rollback performs in LIFO order. -/
def undoImpl : AllocatorUnion → Nat → Nat → AllocatorUnion
  | .generalAllocator g, off, count => .generalAllocator (g.free_addr off count)
  | .linearAllocator a, _, count => .linearAllocator { a with cursor := a.cursor - count }
  | .uninitialized, _, _ => .uninitialized

/-- Undo one logged allocation at the allocator-state level, leaving the
reserved-space flag untouched. -/
def undoAllocation (st : allocator_state_t) (off count : Nat) : allocator_state_t :=
  { st with impl := undoImpl st.impl off count }

/-- Undo one log entry on the pool. -/
def rollbackOne (pool : IDescriptorPoolModel) (e : E_TYPE × Nat × Nat) :
    IDescriptorPoolModel :=
  pool.setAllocator e.1 (undoAllocation (pool.allocators e.1) e.2.1 e.2.2)

/-- Modelled from the spec: roll back every offset allocated during the
current `createDescriptorSets` call, most recent first (spec sections 4.2
and 7). -/
def rollbackAll (pool : IDescriptorPoolModel) (log : List (E_TYPE × Nat × Nat)) :
    IDescriptorPoolModel :=
  log.reverse.foldl rollbackOne pool

/-- Modelled from the spec: the batch loop of
`IDescriptorPool::createDescriptorSets` (declared at IDescriptorPool.h
line 63, its translation unit not among the provided sources): allocate an
offset table per layout; on the first failure, roll back everything allocated
during this call and surface a single failure (`none`) — never a partial
success (spec sections 4.2 and 7). -/
def createDescriptorSetsGo :
    List (List (E_TYPE × Nat)) → IDescriptorPoolModel → List (List Nat) →
    List (E_TYPE × Nat × Nat) →
    Except UnionFault (Option (List (List Nat)) × IDescriptorPoolModel)
  | [], pool, acc, _ => .ok (some acc.reverse, pool)
  | layout :: rest, pool, acc, log =>
    match allocateDescriptorOffsets pool layout with
    | .error e => .error e
    | .ok (some offs, pool', log') =>
      createDescriptorSetsGo rest pool' (offs :: acc) (log ++ log')
    | .ok (none, pool', log') => .ok (none, rollbackAll pool' (log ++ log'))

/-- Modelled from the spec: `IDescriptorPool::createDescriptorSets` over a
batch of layouts (spec section 4.2). -/
def createDescriptorSetsModel (pool : IDescriptorPoolModel)
    (layouts : List (List (E_TYPE × Nat))) :
    Except UnionFault (Option (List (List Nat)) × IDescriptorPoolModel) :=
  createDescriptorSetsGo layouts pool [] []

/-- Couples an allocator state to a pre-call snapshot: same reserved-space
flag and union member, with the allocation measure displaced by exactly `n`
units allocated since the snapshot. -/
def UnionDisplaced : AllocatorUnion → AllocatorUnion → Nat → Prop
  | .linearAllocator a0, .linearAllocator a, n =>
    a.capacity = a0.capacity ∧ a.cursor = a0.cursor + n
  | .generalAllocator g0, .generalAllocator g, n =>
    g.capacity = g0.capacity ∧ sumFree g0.freeRanges = sumFree g.freeRanges + n
  | .uninitialized, .uninitialized, n => n = 0
  | _, _, _ => False

def KINV (st0 st : allocator_state_t) (n : Nat) : Prop :=
  st.generalAllocatorReservedSpace = st0.generalAllocatorReservedSpace ∧
  UnionDisplaced st0.impl st.impl n

/-- Pool-level coupling: flags unchanged and every kind's allocator displaced
by exactly what the log records for that kind. -/
def PINV (pool0 pool : IDescriptorPoolModel) (log : List (E_TYPE × Nat × Nat)) : Prop :=
  pool.flags = pool0.flags ∧
  ∀ k, KINV (pool0.allocators k) (pool.allocators k) (logSum k log)

/-! ## Descriptor-set cache (spec section 4.3) and its transform-tree consumer -/

/-- Modelled from the spec: lifecycle state of one cache slot (spec
section 3): FREE, ACQUIRED, or RELEASED-PENDING carrying the recorded
completion token. Tokens (fences) are modelled as `Nat` identifiers. -/
inductive SlotState where
  | free
  | acquired
  | releasedPending (token : Nat)
  deriving DecidableEq, Repr

/-- Modelled from the spec: `video::IDescriptorSetCache`, a fixed ring of
binding-set slots (its header is not among the provided sources; spec
sections 3 and 4.3). -/
structure IDescriptorSetCache where
  slots : List SlotState
  deriving DecidableEq, Repr

/-- `IDescriptorSetCache::invalid_index`, the all-bits-set `uint32_t`. -/
def invalid_index : Nat := UINT32_CARD - 1

/-- Index of the first slot satisfying `p`. -/
def findSlot (p : SlotState → Bool) : List SlotState → Option Nat
  | [] => none
  | s :: rest =>
    if p s then some 0
    else (findSlot p rest).map (fun i => i + 1)

/-- Whether a slot is FREE. -/
def SlotState.isFree : SlotState → Bool
  | .free => true
  | _ => false

/-- Whether a slot is reclaimable: RELEASED-PENDING with its completion token
already satisfied (`satisfied` is the non-blocking fence-status query). -/
def SlotState.reclaimable (satisfied : Nat → Bool) : SlotState → Bool
  | .releasedPending t => satisfied t
  | _ => false

/-- Modelled from the spec: `IDescriptorSetCache::acquireSet` (spec section
4.3): return a FREE slot, marking it ACQUIRED; if none is FREE, attempt a
non-blocking reclaim of a RELEASED-PENDING slot whose token is satisfied;
otherwise report `invalid_index` at once, leaving the cache unchanged —
never waiting on the device. -/
def IDescriptorSetCache.acquireSet (satisfied : Nat → Bool)
    (c : IDescriptorSetCache) : Nat × IDescriptorSetCache :=
  match findSlot SlotState.isFree c.slots with
  | some i => (i, ⟨c.slots.set i .acquired⟩)
  | none =>
    match findSlot (SlotState.reclaimable satisfied) c.slots with
    | some i => (i, ⟨c.slots.set i .acquired⟩)
    | none => (invalid_index, c)

/-- Modelled from the spec: `IDescriptorSetCache::releaseSet` transitions the
slot to RELEASED-PENDING, recording the submission's completion token (spec
section 4.3). -/
def IDescriptorSetCache.releaseSet (fence : Nat) (i : Nat)
    (c : IDescriptorSetCache) : IDescriptorSetCache :=
  ⟨c.slots.set i (.releasedPending fence)⟩

/-- The command-buffer commands `soleUpdateOrFusedRecompute_impl` can record
(ITransformTreeManager.h lines 835-843). -/
inductive CmdbufCommand where
  | bindDescriptorSets
  | bindComputePipeline
  | dispatchIndirect
  | dispatch
  deriving DecidableEq, Repr

/-- Observable outcome of one update/recompute run: the boolean return value,
the commands recorded into the command buffer, the release calls made
(slot index with fence token), and the final cache state. -/
structure UpdateDispatchResult where
  success : Bool
  recorded : List CmdbufCommand
  releases : List (Nat × Nat)
  cache : IDescriptorSetCache
  deriving DecidableEq, Repr

/-- Embeds `ITransformTreeManager::soleUpdateOrFusedRecompute_impl`
(ITransformTreeManager.h lines 800-848): acquire a set from the cache; on
`invalid_index` log an error and return false with nothing recorded;
otherwise write the descriptors, record the descriptor-set and pipeline binds
and the dispatch (indirect when `params.dispatchIndirect.buffer` is set),
release the slot once with the submission's fence, and return true. -/
def soleUpdateOrFusedRecompute_impl (satisfied : Nat → Bool) (fence : Nat)
    (dispatchIndirectBufferPresent : Bool) (cache : IDescriptorSetCache) :
    UpdateDispatchResult :=
  if (cache.acquireSet satisfied).1 = invalid_index then
    { success := false, recorded := [], releases := [],
      cache := (cache.acquireSet satisfied).2 }
  else
    { success := true,
      recorded := [.bindDescriptorSets, .bindComputePipeline,
        if dispatchIndirectBufferPresent then .dispatchIndirect else .dispatch],
      releases := [((cache.acquireSet satisfied).1, fence)],
      cache := (cache.acquireSet satisfied).2.releaseSet fence
        (cache.acquireSet satisfied).1 }

/-- Embeds `ITransformTreeManager::updateLocalTransforms`
(ITransformTreeManager.h line 651): the `N = 2` forward to
`soleUpdateOrFusedRecompute_impl` with the update pipeline. -/
def updateLocalTransforms (satisfied : Nat → Bool) (fence : Nat)
    (dispatchIndirectBufferPresent : Bool) (cache : IDescriptorSetCache) :
    UpdateDispatchResult :=
  soleUpdateOrFusedRecompute_impl satisfied fence dispatchIndirectBufferPresent cache

/-- Embeds `ITransformTreeManager::recomputeGlobalTransforms`
(ITransformTreeManager.h line 662): the `N = 1` forward to
`soleUpdateOrFusedRecompute_impl` with the recompute pipeline. -/
def recomputeGlobalTransforms (satisfied : Nat → Bool) (fence : Nat)
    (dispatchIndirectBufferPresent : Bool) (cache : IDescriptorSetCache) :
    UpdateDispatchResult :=
  soleUpdateOrFusedRecompute_impl satisfied fence dispatchIndirectBufferPresent cache

/-- `DescriptorSetCache::SharedBindingCount`
(ITransformTreeManager.h line 742). -/
def SharedBindingCount : Nat := 3

/-- Embeds the write loop of the transform-tree manager's
`DescriptorSetCache::acquireSet` (ITransformTreeManager.h lines 753-764):
iteration `i` stores into `writes[i]` and `infos[i]` (the cell records the
binding index written there), each store bounds-checked — `none` marks the
store the C++ code would perform past the end of a stack array.
`ttmWriteLoop count` performs the iterations `i = 0, ..., count - 1` in
order. -/
def ttmWriteLoop : Nat → (List (Option Nat) × List (Option Nat)) →
    Option (List (Option Nat) × List (Option Nat))
  | 0, arrs => some arrs
  | i + 1, arrs =>
    match ttmWriteLoop i arrs with
    | none => none
    | some r =>
      if i < r.1.length ∧ i < r.2.length then
        some (r.1.set i (some i), r.2.set i (some i))
      else
        none

/-- The two `SharedBindingCount`-sized stack arrays `writes[]` and `infos[]`
(ITransformTreeManager.h lines 751-752), in their uninitialized state. -/
def ttmStackArrays : List (Option Nat) × List (Option Nat) :=
  (List.replicate SharedBindingCount none, List.replicate SharedBindingCount none)

/-- Embeds the transform-tree manager's
`DescriptorSetCache::acquireSet(device, buffers, count)`
(ITransformTreeManager.h lines 744-768): acquire from the base cache,
early-return on `invalid_index` before any write, otherwise run the write
loop over the two fixed-size stack arrays and update the descriptor set;
`none` marks the run that stored out of bounds. -/
def ttmAcquireSet (satisfied : Nat → Bool) (cache : IDescriptorSetCache)
    (count : Nat) : Option (Nat × IDescriptorSetCache) :=
  if (cache.acquireSet satisfied).1 = invalid_index then
    some (invalid_index, (cache.acquireSet satisfied).2)
  else
    match ttmWriteLoop count ttmStackArrays with
    | some _ => some ((cache.acquireSet satisfied).1, (cache.acquireSet satisfied).2)
    | none => none

/-! ## Shared concrete examples used by the witnesses -/

/-- A reclaiming pool over one uniform-buffer descriptor. -/
def examplePool : IDescriptorPoolModel :=
  IDescriptorPoolModel.construct 1 [⟨.ET_UNIFORM_BUFFER, 1⟩]

/-- A two-set batch each demanding one uniform-buffer descriptor; on
`examplePool` the second set's allocation must fail. -/
def exampleLayouts : List (List (E_TYPE × Nat)) :=
  [[(.ET_UNIFORM_BUFFER, 1)], [(.ET_UNIFORM_BUFFER, 1)]]

/-- Pool-size request list with a duplicate kind. -/
def examplePoolSizes : List SDescriptorPoolSize :=
  [⟨.ET_UNIFORM_BUFFER, 2⟩, ⟨.ET_STORAGE_IMAGE, 1⟩, ⟨.ET_UNIFORM_BUFFER, 3⟩]

/-- Final pool of a batch-allocation result (the input pool when the call
faulted). -/
def resultPoolOf
    (r : Except UnionFault (Option (List (List Nat)) × IDescriptorPoolModel))
    (dflt : IDescriptorPoolModel) : IDescriptorPoolModel :=
  match r with
  | .ok (_, p) => p
  | .error _ => dflt

/-- Offset table of a successful single-set allocation result. -/
def resultOffsetsOf
    (r : Except UnionFault
      (Option (List Nat) × IDescriptorPoolModel × List (E_TYPE × Nat × Nat))) :
    List Nat :=
  match r with
  | .ok (some offs, _, _) => offs
  | _ => []

/-! ## Theorems -/

theorem E_TYPE.toIndex_lt (k : E_TYPE) : k.toIndex < ET_COUNT := by
  cases k <;> decide

theorem E_TYPE.toIndex_inj : ∀ a b : E_TYPE, a.toIndex = b.toIndex → a = b := by
  decide

theorem sumFree_insertRange (off count : Nat) :
    ∀ l : List (Nat × Nat), sumFree (insertRange off count l) = sumFree l + count := by
  intro l
  induction l generalizing off count with
  | nil => simp [insertRange, sumFree]
  | cons r rest ih =>
    obtain ⟨o, s⟩ := r
    simp only [insertRange]
    split
    · simp [sumFree]; omega
    · split
      · simp [sumFree]; omega
      · split
        · rw [ih]
          simp [sumFree]; omega
        · simp only [sumFree, ih]; omega

theorem allocFit_sumFree (count : Nat) :
    ∀ (l : List (Nat × Nat)) (off : Nat) (l' : List (Nat × Nat)),
      allocFit l count = some (off, l') → sumFree l = sumFree l' + count := by
  intro l
  induction l with
  | nil => intro off l' h; simp [allocFit] at h
  | cons r rest ih =>
    intro off l' h
    obtain ⟨o, s⟩ := r
    simp only [allocFit] at h
    split at h
    · rename_i hle
      injection h with h1
      injection h1 with ho hl
      subst hl
      split
      · simp [sumFree]; omega
      · rename_i hnlt
        simp only [sumFree]; omega
    · split at h
      · rename_i o' rest' hfit
        injection h with h1
        injection h1 with ho hl
        subst hl
        have := ih o' rest' hfit
        simp only [sumFree]; omega
      · exact absurd h (by simp)

theorem linear_alloc_none {a : LinearAddressAllocator} {count : Nat}
    (h : (a.alloc_addr count).1 = none) : (a.alloc_addr count).2 = a := by
  unfold LinearAddressAllocator.alloc_addr at h ⊢
  by_cases hc : a.cursor + count ≤ a.capacity
  · rw [if_pos hc] at h; simp at h
  · rw [if_neg hc]

theorem linear_alloc_some {a : LinearAddressAllocator} {count off : Nat}
    (h : (a.alloc_addr count).1 = some off) :
    off = a.cursor ∧ a.cursor + count ≤ a.capacity ∧
    (a.alloc_addr count).2 = { a with cursor := a.cursor + count } := by
  unfold LinearAddressAllocator.alloc_addr at h ⊢
  by_cases hc : a.cursor + count ≤ a.capacity
  · rw [if_pos hc] at h ⊢
    simp only [Option.some.injEq] at h
    exact ⟨h.symm, hc, rfl⟩
  · rw [if_neg hc] at h
    simp at h

theorem general_alloc_none {g : GeneralpurposeAddressAllocator} {count : Nat}
    (h : (g.alloc_addr count).1 = none) : (g.alloc_addr count).2 = g := by
  unfold GeneralpurposeAddressAllocator.alloc_addr at h ⊢
  by_cases hc : count = 0
  · rw [if_pos hc] at h; simp at h
  · rw [if_neg hc] at h ⊢
    cases hfit : allocFit g.freeRanges count with
    | some p =>
      obtain ⟨o, rs⟩ := p
      rw [hfit] at h
      simp at h
    | none => rfl

theorem general_alloc_some {g : GeneralpurposeAddressAllocator} {count off : Nat}
    (h : (g.alloc_addr count).1 = some off) :
    (g.alloc_addr count).2.capacity = g.capacity ∧
    sumFree g.freeRanges = sumFree (g.alloc_addr count).2.freeRanges + count := by
  unfold GeneralpurposeAddressAllocator.alloc_addr at h ⊢
  by_cases hc : count = 0
  · subst hc
    rw [if_pos rfl] at h ⊢
    exact ⟨rfl, by simp⟩
  · rw [if_neg hc] at h ⊢
    cases hfit : allocFit g.freeRanges count with
    | none =>
      rw [hfit] at h
      simp at h
    | some p =>
      obtain ⟨o, rs⟩ := p
      exact ⟨rfl, allocFit_sumFree count g.freeRanges o rs hfit⟩

theorem allocate_ok_mode {st : allocator_state_t} {count : Nat} {fl : Bool}
    {r : Option Nat} {st' : allocator_state_t}
    (h : st.allocate count fl = .ok (r, st')) :
    st'.impl.modeIndex = st.impl.modeIndex ∧
    st'.generalAllocatorReservedSpace = st.generalAllocatorReservedSpace := by
  cases fl with
  | false =>
    cases him : st.impl with
    | uninitialized => simp [allocator_state_t.allocate, him] at h
    | generalAllocator g => simp [allocator_state_t.allocate, him] at h
    | linearAllocator a =>
      simp only [allocator_state_t.allocate, him, Bool.false_eq_true, if_false] at h
      simp only [Except.ok.injEq, Prod.mk.injEq] at h
      obtain ⟨-, h2⟩ := h
      rw [← h2]
      simp [AllocatorUnion.modeIndex]
  | true =>
    by_cases hres : st.generalAllocatorReservedSpace
    · cases him : st.impl with
      | uninitialized => simp [allocator_state_t.allocate, him, hres] at h
      | linearAllocator a => simp [allocator_state_t.allocate, him, hres] at h
      | generalAllocator g =>
        simp only [allocator_state_t.allocate, him, hres, if_true] at h
        simp only [Except.ok.injEq, Prod.mk.injEq] at h
        obtain ⟨-, h2⟩ := h
        rw [← h2]
        simp [AllocatorUnion.modeIndex, hres]
    · simp [allocator_state_t.allocate, hres] at h

theorem allocate_ok_dispatch {st : allocator_state_t} {count : Nat} {fl : Bool}
    {r : Option Nat} {st' : allocator_state_t}
    (h : st.allocate count fl = .ok (r, st')) :
    (fl = true → ∃ g, st.impl = .generalAllocator g) ∧
    (fl = false → ∃ a, st.impl = .linearAllocator a) := by
  cases fl with
  | false =>
    cases him : st.impl with
    | uninitialized => simp [allocator_state_t.allocate, him] at h
    | generalAllocator g => simp [allocator_state_t.allocate, him] at h
    | linearAllocator a =>
      exact ⟨fun ht => by simp at ht, fun _ => ⟨a, rfl⟩⟩
  | true =>
    by_cases hres : st.generalAllocatorReservedSpace
    · cases him : st.impl with
      | uninitialized => simp [allocator_state_t.allocate, him, hres] at h
      | linearAllocator a => simp [allocator_state_t.allocate, him, hres] at h
      | generalAllocator g =>
        exact ⟨fun _ => ⟨g, rfl⟩, fun hf => by simp at hf⟩
    · simp [allocator_state_t.allocate, hres] at h

/-- A failed allocation leaves the allocator state unchanged
(spec section 4.1: failure must not mutate allocator state). -/
theorem allocate_none_unchanged {st : allocator_state_t} {count : Nat} {fl : Bool}
    {st' : allocator_state_t}
    (h : st.allocate count fl = .ok (none, st')) : st' = st := by
  cases fl with
  | false =>
    cases him : st.impl with
    | uninitialized => simp [allocator_state_t.allocate, him] at h
    | generalAllocator g => simp [allocator_state_t.allocate, him] at h
    | linearAllocator a =>
      simp only [allocator_state_t.allocate, him, Bool.false_eq_true, if_false] at h
      simp only [Except.ok.injEq, Prod.mk.injEq] at h
      obtain ⟨h1, h2⟩ := h
      rw [← h2, linear_alloc_none h1, ← him]
  | true =>
    by_cases hres : st.generalAllocatorReservedSpace
    · cases him : st.impl with
      | uninitialized => simp [allocator_state_t.allocate, him, hres] at h
      | linearAllocator a => simp [allocator_state_t.allocate, him, hres] at h
      | generalAllocator g =>
        simp only [allocator_state_t.allocate, him, hres, if_true] at h
        simp only [Except.ok.injEq, Prod.mk.injEq] at h
        obtain ⟨h1, h2⟩ := h
        rw [← h2, general_alloc_none h1, ← him, ← hres]
    · simp [allocator_state_t.allocate, hres] at h

/-! ## List access helpers -/

theorem getD_set_self {α : Type} {l : List α} {i : Nat} {v d : α} (h : i < l.length) :
    (l.set i v).getD i d = v := by
  rw [List.getD_eq_getElem?_getD, List.getElem?_set_self h]
  rfl

theorem getD_set_ne {α : Type} {l : List α} {i j : Nat} {v d : α} (h : i ≠ j) :
    (l.set i v).getD j d = l.getD j d := by
  rw [List.getD_eq_getElem?_getD, List.getElem?_set_ne h, List.getD_eq_getElem?_getD]

theorem accumulate_length (arr : List Nat) (p : SDescriptorPoolSize) :
    (accumulatePoolSize arr p).length = arr.length := by
  unfold accumulatePoolSize
  rw [List.length_set]

theorem foldl_accumulate_length (ps : List SDescriptorPoolSize) :
    ∀ arr : List Nat, (ps.foldl accumulatePoolSize arr).length = arr.length := by
  induction ps with
  | nil => intro arr; rfl
  | cons p rest ih =>
    intro arr
    rw [List.foldl_cons, ih, accumulate_length]

theorem mkMaxDescriptorCount_length (ps : List SDescriptorPoolSize) :
    (mkMaxDescriptorCount ps).length = ET_COUNT := by
  unfold mkMaxDescriptorCount
  rw [foldl_accumulate_length, List.length_replicate]

theorem kindSum_cons (k : E_TYPE) (p : SDescriptorPoolSize)
    (rest : List SDescriptorPoolSize) :
    kindSum k (p :: rest) = (if p.type = k then p.count else 0) + kindSum k rest := rfl

theorem foldl_accumulate_getD (k : E_TYPE) (ps : List SDescriptorPoolSize) :
    ∀ arr : List Nat, arr.length = ET_COUNT →
      arr.getD k.toIndex 0 + kindSum k ps < UINT32_CARD →
      (ps.foldl accumulatePoolSize arr).getD k.toIndex 0 =
        arr.getD k.toIndex 0 + kindSum k ps := by
  induction ps with
  | nil =>
    intro arr _ _
    simp [kindSum]
  | cons p rest ih =>
    intro arr hlen hbound
    rw [kindSum_cons] at hbound ⊢
    rw [List.foldl_cons]
    by_cases hk : p.type = k
    · subst hk
      rw [if_pos rfl] at hbound ⊢
      have hstep : (accumulatePoolSize arr p).getD p.type.toIndex 0 =
          arr.getD p.type.toIndex 0 + p.count := by
        unfold accumulatePoolSize
        rw [getD_set_self (by rw [hlen]; exact p.type.toIndex_lt)]
        exact Nat.mod_eq_of_lt (by omega)
      rw [ih _ (by rw [accumulate_length]; exact hlen) (by rw [hstep]; omega), hstep]
      omega
    · rw [if_neg hk] at hbound ⊢
      have hne : p.type.toIndex ≠ k.toIndex := fun he => hk (E_TYPE.toIndex_inj _ _ he)
      have hstep : (accumulatePoolSize arr p).getD k.toIndex 0 = arr.getD k.toIndex 0 := by
        unfold accumulatePoolSize
        exact getD_set_ne hne
      rw [ih _ (by rw [accumulate_length]; exact hlen) (by rw [hstep]; omega), hstep]
      omega

theorem foldl_accumulate_getD_untouched (k : E_TYPE) (ps : List SDescriptorPoolSize) :
    ∀ arr : List Nat, (∀ p ∈ ps, p.type ≠ k) →
      (ps.foldl accumulatePoolSize arr).getD k.toIndex 0 = arr.getD k.toIndex 0 := by
  induction ps with
  | nil => intro arr _; rfl
  | cons p rest ih =>
    intro arr hnone
    rw [List.foldl_cons, ih _ (fun q hq => hnone q (List.mem_cons_of_mem _ hq))]
    have hk : p.type ≠ k := hnone p (List.mem_cons_self _ _)
    exact getD_set_ne (fun he => hk (E_TYPE.toIndex_inj _ _ he))

theorem maxDescriptorCountOf_lt (ps : List SDescriptorPoolSize) (k : E_TYPE) :
    maxDescriptorCountOf ps k < UINT32_CARD := by
  unfold maxDescriptorCountOf mkMaxDescriptorCount
  have : ∀ (l : List SDescriptorPoolSize) (arr : List Nat),
      (∀ i d, d < UINT32_CARD → arr.getD i d < UINT32_CARD) →
      ∀ i d, d < UINT32_CARD → (l.foldl accumulatePoolSize arr).getD i d < UINT32_CARD := by
    intro l
    induction l with
    | nil => intro arr h i d hd; exact h i d hd
    | cons p rest ih =>
      intro arr h i d hd
      rw [List.foldl_cons]
      refine ih _ ?_ i d hd
      intro j e he
      unfold accumulatePoolSize
      by_cases hj : p.type.toIndex = j
      · subst hj
        by_cases hlt : p.type.toIndex < arr.length
        · rw [getD_set_self hlt]
          exact Nat.mod_lt _ (by unfold UINT32_CARD; omega)
        · rw [List.set_eq_of_length_le (by omega)]
          exact h _ _ he
      · rw [getD_set_ne hj]
        exact h _ _ he
  refine this ps _ ?_ _ _ (by unfold UINT32_CARD; omega)
  intro i d hd
  rw [List.getD_eq_getElem?_getD, List.getElem?_replicate]
  by_cases hi : i < ET_COUNT
  · rw [if_pos hi]
    unfold UINT32_CARD
    simp
  · rw [if_neg hi]
    exact hd

/-! ## Invariant machinery for the batch-allocation rollback -/

theorem UnionDisplaced_refl (u : AllocatorUnion) : UnionDisplaced u u 0 := by
  cases u <;> simp [UnionDisplaced]

theorem UnionDisplaced_trans {a b c : AllocatorUnion} {n m : Nat}
    (hab : UnionDisplaced a b n) (hbc : UnionDisplaced b c m) :
    UnionDisplaced a c (n + m) := by
  cases a <;> cases b <;> cases c <;> simp_all [UnionDisplaced] <;> omega

theorem KINV_refl (st : allocator_state_t) : KINV st st 0 :=
  ⟨rfl, UnionDisplaced_refl st.impl⟩

theorem KINV_trans {a b c : allocator_state_t} {n m : Nat}
    (hab : KINV a b n) (hbc : KINV b c m) : KINV a c (n + m) :=
  ⟨hbc.1.trans hab.1, UnionDisplaced_trans hab.2 hbc.2⟩

theorem allocate_some_kinv {st : allocator_state_t} {count : Nat} {fl : Bool}
    {off : Nat} {st' : allocator_state_t}
    (h : st.allocate count fl = .ok (some off, st')) : KINV st st' count := by
  refine ⟨(allocate_ok_mode h).2, ?_⟩
  cases fl with
  | false =>
    cases him : st.impl with
    | uninitialized => simp [allocator_state_t.allocate, him] at h
    | generalAllocator g => simp [allocator_state_t.allocate, him] at h
    | linearAllocator a =>
      simp only [allocator_state_t.allocate, him, Bool.false_eq_true, if_false] at h
      simp only [Except.ok.injEq, Prod.mk.injEq] at h
      obtain ⟨h1, h2⟩ := h
      obtain ⟨-, hle, hsnd⟩ := linear_alloc_some h1
      rw [← h2]
      show UnionDisplaced (AllocatorUnion.linearAllocator a)
        (AllocatorUnion.linearAllocator (a.alloc_addr count).2) count
      rw [hsnd]
      exact ⟨rfl, rfl⟩
  | true =>
    by_cases hres : st.generalAllocatorReservedSpace
    · cases him : st.impl with
      | uninitialized => simp [allocator_state_t.allocate, him, hres] at h
      | linearAllocator a => simp [allocator_state_t.allocate, him, hres] at h
      | generalAllocator g =>
        simp only [allocator_state_t.allocate, him, hres, if_true] at h
        simp only [Except.ok.injEq, Prod.mk.injEq] at h
        obtain ⟨h1, h2⟩ := h
        obtain ⟨hcap, hsum⟩ := general_alloc_some h1
        rw [← h2]
        exact ⟨hcap, hsum⟩
    · simp [allocator_state_t.allocate, hres] at h

theorem undoImpl_displaced {u0 u : AllocatorUnion} {n count off : Nat}
    (h : UnionDisplaced u0 u (n + count)) :
    UnionDisplaced u0 (undoImpl u off count) n := by
  cases u0 <;> cases u <;>
    simp_all [UnionDisplaced, undoImpl, GeneralpurposeAddressAllocator.free_addr,
      sumFree_insertRange] <;> omega

theorem undoAllocation_kinv {st0 st : allocator_state_t} {n count off : Nat}
    (h : KINV st0 st (n + count)) :
    KINV st0 (undoAllocation st off count) n :=
  ⟨h.1, undoImpl_displaced h.2⟩

theorem logSum_append (k : E_TYPE) (l1 l2 : List (E_TYPE × Nat × Nat)) :
    logSum k (l1 ++ l2) = logSum k l1 + logSum k l2 := by
  induction l1 with
  | nil => simp [logSum]
  | cons e rest ih =>
    rw [List.cons_append]
    simp only [logSum]
    rw [ih]
    omega

theorem logSum_reverse (k : E_TYPE) (l : List (E_TYPE × Nat × Nat)) :
    logSum k l.reverse = logSum k l := by
  induction l with
  | nil => rfl
  | cons e rest ih =>
    rw [List.reverse_cons, logSum_append, ih]
    simp only [logSum]
    omega

theorem PINV_refl (pool : IDescriptorPoolModel) : PINV pool pool [] :=
  ⟨rfl, fun _ => KINV_refl _⟩

theorem PINV_trans {p0 p1 p2 : IDescriptorPoolModel}
    {l1 l2 : List (E_TYPE × Nat × Nat)}
    (h01 : PINV p0 p1 l1) (h12 : PINV p1 p2 l2) : PINV p0 p2 (l1 ++ l2) := by
  refine ⟨h12.1.trans h01.1, fun k => ?_⟩
  rw [logSum_append]
  exact KINV_trans (h01.2 k) (h12.2 k)

theorem setAllocator_at {pool : IDescriptorPoolModel} {k : E_TYPE}
    {st : allocator_state_t} : (pool.setAllocator k st).allocators k = st := by
  simp [IDescriptorPoolModel.setAllocator]

theorem setAllocator_ne {pool : IDescriptorPoolModel} {k j : E_TYPE}
    {st : allocator_state_t} (h : j ≠ k) :
    (pool.setAllocator k st).allocators j = pool.allocators j := by
  simp [IDescriptorPoolModel.setAllocator, h]

theorem PINV_allocStepOne {pool : IDescriptorPoolModel} {k : E_TYPE}
    {st' : allocator_state_t} {count off : Nat}
    (h : (pool.allocators k).allocate count (poolAllowsFreeing pool.flags) =
      .ok (some off, st')) :
    PINV pool (pool.setAllocator k st') [(k, off, count)] := by
  refine ⟨rfl, fun j => ?_⟩
  by_cases hj : j = k
  · subst hj
    rw [setAllocator_at]
    simp only [logSum, if_pos rfl]
    have := allocate_some_kinv h
    simpa [logSum] using this
  · rw [setAllocator_ne hj]
    have h0 : logSum j [(k, off, count)] = 0 := by simp [logSum, Ne.symm hj]
    rw [h0]
    exact KINV_refl _

theorem PINV_reverse {p0 p : IDescriptorPoolModel} {L : List (E_TYPE × Nat × Nat)}
    (h : PINV p0 p L) : PINV p0 p L.reverse :=
  ⟨h.1, fun k => by rw [logSum_reverse]; exact h.2 k⟩

theorem rollback_fold_pinv :
    ∀ (M : List (E_TYPE × Nat × Nat)) (pool0 pool : IDescriptorPoolModel),
      PINV pool0 pool M → PINV pool0 (M.foldl rollbackOne pool) [] := by
  intro M
  induction M with
  | nil =>
    intro pool0 pool h
    exact h
  | cons e rest ih =>
    intro pool0 pool h
    rw [List.foldl_cons]
    refine ih pool0 (rollbackOne pool e) ⟨h.1, fun k => ?_⟩
    have hke := h.2 k
    by_cases hk : k = e.1
    · subst hk
      rw [rollbackOne, setAllocator_at]
      simp only [logSum, if_pos rfl] at hke
      rw [Nat.add_comm] at hke
      exact undoAllocation_kinv hke
    · rw [rollbackOne, setAllocator_ne hk]
      simp only [logSum, if_neg (Ne.symm hk)] at hke
      simpa using hke

theorem rollbackAll_pinv {pool0 pool : IDescriptorPoolModel}
    {L : List (E_TYPE × Nat × Nat)} (h : PINV pool0 pool L) :
    PINV pool0 (rollbackAll pool L) [] :=
  rollback_fold_pinv L.reverse pool0 pool (PINV_reverse h)

theorem allocateKindsGo_pinv :
    ∀ (ks : List E_TYPE) (pool : IDescriptorPoolModel) (demand : E_TYPE → Nat)
      (offsets : List Nat) (log : List (E_TYPE × Nat × Nat))
      {res : Option (List Nat)} {pool' : IDescriptorPoolModel}
      {log' : List (E_TYPE × Nat × Nat)},
      allocateKindsGo ks pool demand offsets log = .ok (res, pool', log') →
      ∃ ext, log' = log ++ ext ∧ PINV pool pool' ext := by
  intro ks
  induction ks with
  | nil =>
    intro pool demand offsets log res pool' log' h
    simp only [allocateKindsGo, Except.ok.injEq, Prod.mk.injEq] at h
    obtain ⟨-, h2, h3⟩ := h
    exact ⟨[], by rw [← h3, List.append_nil], by rw [← h2]; exact PINV_refl pool⟩
  | cons k rest ih =>
    intro pool demand offsets log res pool' log' h
    simp only [allocateKindsGo] at h
    by_cases hd0 : demand k = 0
    · rw [if_pos hd0] at h
      exact ih pool demand offsets log h
    · rw [if_neg hd0] at h
      cases halloc : (pool.allocators k).allocate (demand k) (poolAllowsFreeing pool.flags) with
      | error e =>
        rw [halloc] at h
        exact absurd h (by simp)
      | ok p =>
        obtain ⟨r, st'⟩ := p
        cases r with
        | none =>
          rw [halloc] at h
          simp only [Except.ok.injEq, Prod.mk.injEq] at h
          obtain ⟨-, h2, h3⟩ := h
          refine ⟨[], by rw [← h3, List.append_nil], ?_⟩
          rw [← h2]
          refine ⟨rfl, fun j => ?_⟩
          by_cases hj : j = k
          · subst hj
            rw [setAllocator_at, allocate_none_unchanged halloc]
            exact KINV_refl _
          · rw [setAllocator_ne hj]
            exact KINV_refl _
        | some off =>
          rw [halloc] at h
          obtain ⟨ext2, hlog, hpinv⟩ := ih _ demand _ _ h
          refine ⟨(k, off, demand k) :: ext2, ?_, ?_⟩
          · rw [hlog, List.append_assoc]
            rfl
          · have h1 := PINV_allocStepOne halloc
            have := PINV_trans h1 hpinv
            simpa using this

theorem createDSGo_fail_pinv :
    ∀ (layouts : List (List (E_TYPE × Nat))) (pool0 pool : IDescriptorPoolModel)
      (acc : List (List Nat)) (log : List (E_TYPE × Nat × Nat))
      {poolF : IDescriptorPoolModel},
      PINV pool0 pool log →
      createDescriptorSetsGo layouts pool acc log = .ok (none, poolF) →
      PINV pool0 poolF [] := by
  intro layouts
  induction layouts with
  | nil =>
    intro pool0 pool acc log poolF hinv h
    unfold createDescriptorSetsGo at h
    exact absurd h (by simp)
  | cons layout rest ih =>
    intro pool0 pool acc log poolF hinv h
    unfold createDescriptorSetsGo at h
    cases halloc : allocateDescriptorOffsets pool layout with
    | error e =>
      rw [halloc] at h
      exact absurd h (by simp)
    | ok p =>
      obtain ⟨r, pool', log'⟩ := p
      cases r with
      | none =>
        rw [halloc] at h
        simp only [Except.ok.injEq, Prod.mk.injEq] at h
        obtain ⟨-, hpf⟩ := h
        obtain ⟨ext, hlog, hpinv⟩ := allocateKindsGo_pinv _ _ _ _ _ halloc
        rw [List.nil_append] at hlog
        subst hlog
        rw [← hpf]
        exact rollbackAll_pinv (PINV_trans hinv hpinv)
      | some offs =>
        rw [halloc] at h
        obtain ⟨ext, hlog, hpinv⟩ := allocateKindsGo_pinv _ _ _ _ _ halloc
        rw [List.nil_append] at hlog
        subst hlog
        exact ih pool0 pool' _ _ (PINV_trans hinv hpinv) h

theorem outstanding_of_kinv_zero {st0 st : allocator_state_t}
    (h : KINV st0 st 0) : st.outstanding = st0.outstanding := by
  obtain ⟨hres, hd⟩ := h
  unfold allocator_state_t.outstanding
  cases h0 : st0.impl <;> cases h1 : st.impl <;> rw [h0, h1] at hd <;>
    simp_all [UnionDisplaced]

/-! ## Cache lemmas -/

theorem findSlot_none {p : SlotState → Bool} :
    ∀ l : List SlotState, (∀ s ∈ l, p s = false) → findSlot p l = none := by
  intro l
  induction l with
  | nil => intro _; rfl
  | cons s rest ih =>
    intro h
    unfold findSlot
    rw [if_neg (by rw [h s (List.mem_cons_self _ _)]; simp),
        ih (fun q hq => h q (List.mem_cons_of_mem _ hq))]
    rfl

theorem findSlot_some_lt {p : SlotState → Bool} :
    ∀ (l : List SlotState) (i : Nat), findSlot p l = some i → i < l.length := by
  intro l
  induction l with
  | nil => intro i h; simp [findSlot] at h
  | cons s rest ih =>
    intro i h
    unfold findSlot at h
    by_cases hp : p s
    · rw [if_pos hp] at h
      injection h with h
      subst h
      simp
    · rw [if_neg hp] at h
      cases hf : findSlot p rest with
      | none => rw [hf] at h; simp at h
      | some j =>
        rw [hf] at h
        simp at h
        have := ih j hf
        simp only [List.length_cons]
        omega

theorem acquireSet_valid {satisfied : Nat → Bool} {cache : IDescriptorSetCache}
    (h : (cache.acquireSet satisfied).1 ≠ invalid_index) :
    (cache.acquireSet satisfied).1 < cache.slots.length ∧
    (cache.acquireSet satisfied).2.slots =
      cache.slots.set (cache.acquireSet satisfied).1 SlotState.acquired := by
  unfold IDescriptorSetCache.acquireSet at h ⊢
  cases h1 : findSlot SlotState.isFree cache.slots with
  | some i => exact ⟨findSlot_some_lt _ _ h1, rfl⟩
  | none =>
    cases h2 : findSlot (SlotState.reclaimable satisfied) cache.slots with
    | some i => exact ⟨findSlot_some_lt _ _ h2, rfl⟩
    | none =>
      rw [h1, h2] at h
      exact absurd rfl h

/-! ## Write-loop lemmas -/

theorem ttmWriteLoop_lengths :
    ∀ (count : Nat) (arrs r : List (Option Nat) × List (Option Nat)),
      ttmWriteLoop count arrs = some r →
      r.1.length = arrs.1.length ∧ r.2.length = arrs.2.length := by
  intro count
  induction count with
  | zero =>
    intro arrs r h
    unfold ttmWriteLoop at h
    injection h with h
    subst h
    exact ⟨rfl, rfl⟩
  | succ n ih =>
    intro arrs r h
    unfold ttmWriteLoop at h
    split at h
    · exact absurd h (by simp)
    · rename_i q hq
      obtain ⟨hq1, hq2⟩ := ih arrs q hq
      split at h
      · injection h with h
        subst h
        refine ⟨?_, ?_⟩
        · rw [List.length_set]
          exact hq1
        · rw [List.length_set]
          exact hq2
      · exact absurd h (by simp)

theorem ttmWriteLoop_ok :
    ∀ (count : Nat) (arrs : List (Option Nat) × List (Option Nat)),
      count ≤ arrs.1.length → count ≤ arrs.2.length →
      ∃ r, ttmWriteLoop count arrs = some r := by
  intro count
  induction count with
  | zero => intro arrs _ _; exact ⟨arrs, rfl⟩
  | succ n ih =>
    intro arrs h1 h2
    obtain ⟨r, hr⟩ := ih arrs (by omega) (by omega)
    obtain ⟨hl1, hl2⟩ := ttmWriteLoop_lengths n arrs r hr
    refine ⟨(r.1.set n (some n), r.2.set n (some n)), ?_⟩
    unfold ttmWriteLoop
    simp only [hr]
    rw [if_pos ⟨by omega, by omega⟩]

theorem ttmWriteLoop_overflow :
    ∀ (count : Nat) (arrs : List (Option Nat) × List (Option Nat)),
      arrs.1.length < count → ttmWriteLoop count arrs = none := by
  intro count
  induction count with
  | zero => intro arrs h; exact absurd h (Nat.not_lt_zero _)
  | succ n ih =>
    intro arrs h
    unfold ttmWriteLoop
    cases hl : ttmWriteLoop n arrs with
    | none => rfl
    | some r =>
      obtain ⟨hl1, -⟩ := ttmWriteLoop_lengths n arrs r hl
      by_cases hn : arrs.1.length < n
      · rw [ih arrs hn] at hl
        exact absurd hl (by simp)
      · show (if n < r.1.length ∧ n < r.2.length then
            some (r.1.set n (some n), r.2.set n (some n)) else none) = none
        rw [if_neg (by intro hc; omega)]

/-! ## Additional helper lemmas -/

theorem UINT32_CARD_eq : UINT32_CARD = 4294967296 := by
  unfold UINT32_CARD
  norm_num

theorem getD_replicate_zero (n i : Nat) : (List.replicate n (0 : Nat)).getD i 0 = 0 := by
  rw [List.getD_eq_getElem?_getD, List.getElem?_replicate]
  split <;> rfl

theorem allocateKindsGo_offsets_untouched :
    ∀ (ks : List E_TYPE) (pool : IDescriptorPoolModel) (demand : E_TYPE → Nat)
      (offsets : List Nat) (log : List (E_TYPE × Nat × Nat))
      {res : List Nat} {pool' : IDescriptorPoolModel}
      {log' : List (E_TYPE × Nat × Nat)},
      allocateKindsGo ks pool demand offsets log = .ok (some res, pool', log') →
      ∀ k : E_TYPE, demand k = 0 → res.getD k.toIndex 0 = offsets.getD k.toIndex 0 := by
  intro ks
  induction ks with
  | nil =>
    intro pool demand offsets log res pool' log' h k hk
    simp only [allocateKindsGo, Except.ok.injEq, Prod.mk.injEq,
      Option.some.injEq] at h
    obtain ⟨h1, -, -⟩ := h
    rw [← h1]
  | cons ka rest ih =>
    intro pool demand offsets log res pool' log' h k hk
    simp only [allocateKindsGo] at h
    by_cases hd0 : demand ka = 0
    · rw [if_pos hd0] at h
      exact ih _ _ _ _ h k hk
    · rw [if_neg hd0] at h
      cases halloc : (pool.allocators ka).allocate (demand ka)
          (poolAllowsFreeing pool.flags) with
      | error e =>
        rw [halloc] at h
        exact absurd h (by simp)
      | ok p =>
        obtain ⟨r, st'⟩ := p
        cases r with
        | none =>
          rw [halloc] at h
          exact absurd h (by simp)
        | some off =>
          rw [halloc] at h
          rw [ih _ _ _ _ h k hk]
          have hne : ka.toIndex ≠ k.toIndex := fun he => hd0 (by
            rw [E_TYPE.toIndex_inj _ _ he]
            exact hk)
          exact getD_set_ne hne

theorem allocStep_preserves (pool : IDescriptorPoolModel) (op : E_TYPE × Nat)
    (k : E_TYPE) :
    ((pool.allocStep op).allocators k).impl.modeIndex =
      ((pool.allocators k).impl).modeIndex ∧
    (pool.allocStep op).flags = pool.flags := by
  unfold IDescriptorPoolModel.allocStep
  cases halloc : (pool.allocators op.1).allocate op.2 (poolAllowsFreeing pool.flags) with
  | error e => exact ⟨rfl, rfl⟩
  | ok p =>
    obtain ⟨r, st'⟩ := p
    refine ⟨?_, rfl⟩
    by_cases hk : k = op.1
    · subst hk
      rw [setAllocator_at]
      exact (allocate_ok_mode halloc).1
    · rw [setAllocator_ne hk]

theorem applyAllocs_preserves (ops : List (E_TYPE × Nat)) :
    ∀ (pool : IDescriptorPoolModel) (k : E_TYPE),
      ((pool.applyAllocs ops).allocators k).impl.modeIndex =
        ((pool.allocators k).impl).modeIndex ∧
      (pool.applyAllocs ops).flags = pool.flags := by
  induction ops with
  | nil => intro pool k; exact ⟨rfl, rfl⟩
  | cons op rest ih =>
    intro pool k
    have h1 := allocStep_preserves pool op k
    have h2 := ih (pool.allocStep op) k
    exact ⟨h2.1.trans h1.1, h2.2.trans h1.2⟩

/-! ## Claims -/

/-- C2: for every allocator constructed in non-reclaiming mode (the pool's
creation flags lack `ECF_FREE_DESCRIPTOR_SET_BIT`), `allocator_state_t::free`
trips the `assert(generalAllocatorReservedSpace)` (IDescriptorPool.h
line 144): the call fails loudly, returning no mutated state, and never
reaches the general-purpose `free_addr` on the union storage holding the
linear allocator. -/
theorem C2_free_without_free_bit_asserts
    (flags maxDescriptorCount allocatedOffset count : Nat)
    (h : flags &&& ECF_FREE_DESCRIPTOR_SET_BIT = 0) :
    (allocator_state_t.construct maxDescriptorCount (poolAllowsFreeing flags)).free
      allocatedOffset count = .error .assertionFailure := by
  have hfl : poolAllowsFreeing flags = false := by
    unfold poolAllowsFreeing
    rw [h]
    rfl
  rw [hfl]
  unfold allocator_state_t.construct
  by_cases h0 : maxDescriptorCount = 0
  · rw [if_pos h0]
    rfl
  · rw [if_neg h0]
    rfl

/-- Witness for C2 at a concrete input: a four-descriptor allocator of a pool
created with flags 0. -/
theorem C2_witness :
    (allocator_state_t.construct 4 (poolAllowsFreeing 0)).free 0 1 =
      .error .assertionFailure :=
  C2_free_without_free_bit_asserts 0 4 0 1 rfl

/-- C3 (code bug, shown at the failing input): constructing a pool from the
single request of five storage-texel-buffer descriptors, line 89 of
IDescriptorPool.h sizes `m_UTB_STBStorage` with
`maxCount[ET_STORAGE_BUFFER_DYNAMIC]` as the second summand, yielding 0
elements, while the spec — and the member's own `utb | stb` comment
(line 161) — require `maxCount[uniform-texel-buffer] +
maxCount[storage-texel-buffer]` = 5. -/
theorem C3_UTB_STB_storage_length_diverges :
    m_UTB_STBStorage_length [⟨.ET_STORAGE_TEXEL_BUFFER, 5⟩] = 0 ∧
    specified_UTB_STBStorage_length [⟨.ET_STORAGE_TEXEL_BUFFER, 5⟩] = 5 := by
  constructor
  · decide
  · decide

/-- C4 (code bug): for every construction, the capacity for the extra
mutable-sampler allocator is read at `m_maxDescriptorCount[ET_COUNT]`
(IDescriptorPool.h line 82), but the array has exactly `ET_COUNT` elements
(line 107), so the checked read reports out-of-bounds — the C++ read is past
the end of the array and never an in-bounds, initialized element. -/
theorem C4_mutable_sampler_capacity_read_out_of_bounds
    (ps : List SDescriptorPoolSize) :
    (mkMaxDescriptorCount ps).length = ET_COUNT ∧
    mutableSamplerCapacityRead ps = none := by
  refine ⟨mkMaxDescriptorCount_length ps, ?_⟩
  unfold mutableSamplerCapacityRead
  exact List.get?_eq_none.mpr (le_of_eq (mkMaxDescriptorCount_length ps))

/-- C9: after construction, `maxDescriptorCount[kind]` equals the total of
the counts of all pool-size requests naming that kind — duplicate entries
accumulate (given the total fits in `uint32_t`) — and equals 0 for every kind
no request names. -/
theorem C9_maxDescriptorCount_accumulates
    (ps : List SDescriptorPoolSize) (k : E_TYPE) :
    (kindSum k ps < UINT32_CARD → maxDescriptorCountOf ps k = kindSum k ps) ∧
    ((∀ p ∈ ps, p.type ≠ k) → maxDescriptorCountOf ps k = 0) := by
  constructor
  · intro hb
    unfold maxDescriptorCountOf mkMaxDescriptorCount
    rw [foldl_accumulate_getD k ps _ (by simp)
          (by rw [getD_replicate_zero]; omega),
        getD_replicate_zero]
    omega
  · intro hun
    unfold maxDescriptorCountOf mkMaxDescriptorCount
    rw [foldl_accumulate_getD_untouched k ps _ hun, getD_replicate_zero]

/-- Witness for C9 at a concrete input: requests with a duplicated
uniform-buffer entry accumulate to 5, and the never-named
acceleration-structure kind stays 0. -/
theorem C9_witness :
    maxDescriptorCountOf examplePoolSizes .ET_UNIFORM_BUFFER =
      kindSum .ET_UNIFORM_BUFFER examplePoolSizes ∧
    maxDescriptorCountOf examplePoolSizes .ET_ACCELERATION_STRUCTURE = 0 :=
  ⟨(C9_maxDescriptorCount_accumulates examplePoolSizes .ET_UNIFORM_BUFFER).1
      (by decide),
   (C9_maxDescriptorCount_accumulates examplePoolSizes .ET_ACCELERATION_STRUCTURE).2
      (by decide)⟩

/-- C7: every entry of a default-constructed `SDescriptorOffsets` is the
all-bits-set sentinel `~0u` (IDescriptorPool.h lines 43-48); the sentinel can
never be a valid offset, since every valid offset is below its kind's
capacity and capacities are `uint32_t` values; and a set whose layout demands
nothing of a kind leaves that kind's entry at the sentinel, which is what
teardown relies on to skip it. -/
theorem C7_offsets_default_sentinel :
    (SDescriptorOffsets_default.length = ET_COUNT + 1 ∧
     ∀ i, i < ET_COUNT + 1 → SDescriptorOffsets_default.getD i 0 = invalid_address) ∧
    (∀ (ps : List SDescriptorPoolSize) (k : E_TYPE) (off : Nat),
      off < maxDescriptorCountOf ps k → off ≠ invalid_address) ∧
    (∀ (pool : IDescriptorPoolModel) (layout : List (E_TYPE × Nat))
      (offs : List Nat) (pool' : IDescriptorPoolModel)
      (log : List (E_TYPE × Nat × Nat)),
      allocateDescriptorOffsets pool layout = .ok (some offs, pool', log) →
      ∀ k : E_TYPE, layoutDemand layout k = 0 →
        offs.getD k.toIndex 0 = invalid_address) := by
  refine ⟨⟨by simp [SDescriptorOffsets_default], ?_⟩, ?_, ?_⟩
  · intro i hi
    unfold SDescriptorOffsets_default
    rw [List.getD_eq_getElem?_getD, List.getElem?_replicate, if_pos hi]
    rfl
  · intro ps k off hoff
    have hlt := maxDescriptorCountOf_lt ps k
    rw [UINT32_CARD_eq] at hlt
    unfold invalid_address
    rw [UINT32_CARD_eq]
    omega
  · intro pool layout offs pool' log h k hk
    unfold allocateDescriptorOffsets at h
    rw [allocateKindsGo_offsets_untouched _ _ _ _ _ h k hk]
    unfold SDescriptorOffsets_default
    rw [List.getD_eq_getElem?_getD, List.getElem?_replicate,
        if_pos (by have := k.toIndex_lt; omega)]
    rfl

/-- Witness for C7 at concrete inputs: entry 5 of the default table is the
sentinel; offset 3 into a four-descriptor uniform-buffer capacity is not the
sentinel; and after allocating offsets for a layout using only the
uniform-buffer kind on `examplePool`, the storage-image entry is still the
sentinel. -/
theorem C7_witness :
    SDescriptorOffsets_default.getD 5 0 = invalid_address ∧
    (3 : Nat) ≠ invalid_address ∧
    (resultOffsetsOf (allocateDescriptorOffsets examplePool
        [(.ET_UNIFORM_BUFFER, 1)])).getD E_TYPE.ET_STORAGE_IMAGE.toIndex 0 =
      invalid_address :=
  ⟨C7_offsets_default_sentinel.1.2 5 (by decide),
   C7_offsets_default_sentinel.2.1 [⟨.ET_UNIFORM_BUFFER, 4⟩] .ET_UNIFORM_BUFFER 3
     (by decide),
   C7_offsets_default_sentinel.2.2 examplePool [(.ET_UNIFORM_BUFFER, 1)] _ _ _
     (by rfl) .ET_STORAGE_IMAGE (by decide)⟩

/-- C8: the union member of every per-kind allocator is fixed at construction
by `m_flags & ECF_FREE_DESCRIPTOR_SET_BIT` — general-purpose when the bit is
set, linear when clear, none for zero-capacity kinds (IDescriptorPool.h
lines 111-125); the member never changes across any sequence of allocate
calls the pool issues; and every allocate call that returns dispatches on
that same flag to the matching member (lines 129-140). -/
theorem C8_allocator_mode_fixed :
    (∀ (flags : Nat) (ps : List SDescriptorPoolSize) (k : E_TYPE),
      ((IDescriptorPoolModel.construct flags ps).allocators k).impl =
        (if maxDescriptorCountOf ps k = 0 then AllocatorUnion.uninitialized
         else if poolAllowsFreeing flags then
           AllocatorUnion.generalAllocator
             ⟨maxDescriptorCountOf ps k, [(0, maxDescriptorCountOf ps k)]⟩
         else AllocatorUnion.linearAllocator ⟨maxDescriptorCountOf ps k, 0⟩)) ∧
    (∀ (flags : Nat) (ps : List SDescriptorPoolSize)
      (ops : List (E_TYPE × Nat)) (k : E_TYPE),
      (((IDescriptorPoolModel.construct flags ps).applyAllocs ops).allocators
        k).impl.modeIndex =
      ((IDescriptorPoolModel.construct flags ps).allocators k).impl.modeIndex) ∧
    (∀ (st : allocator_state_t) (c : Nat) (fl : Bool) (r : Option Nat)
      (st' : allocator_state_t), st.allocate c fl = .ok (r, st') →
      (fl = true → ∃ g, st.impl = AllocatorUnion.generalAllocator g) ∧
      (fl = false → ∃ a, st.impl = AllocatorUnion.linearAllocator a)) := by
  refine ⟨?_, ?_, ?_⟩
  · intro flags ps k
    simp only [IDescriptorPoolModel.construct, allocator_state_t.construct]
    split_ifs <;> rfl
  · intro flags ps ops k
    exact (applyAllocs_preserves ops _ k).1
  · intro st c fl r st' h
    exact allocate_ok_dispatch h

/-- Witness for C8 at concrete inputs: a four-descriptor allocator
constructed with the free bit holds the general-purpose member, one
constructed without it holds the linear member; both shown through a
succeeding allocate call. -/
theorem C8_witness :
    (∃ g, (allocator_state_t.construct 4 true).impl =
      AllocatorUnion.generalAllocator g) ∧
    (∃ a, (allocator_state_t.construct 4 false).impl =
      AllocatorUnion.linearAllocator a) :=
  ⟨(C8_allocator_mode_fixed.2.2 (allocator_state_t.construct 4 true) 1 true _ _
      rfl).1 rfl,
   (C8_allocator_mode_fixed.2.2 (allocator_state_t.construct 4 false) 1 false _ _
      rfl).2 rfl⟩

/-- C1: whenever the batch `createDescriptorSets` call fails because some
kind's offset allocation failed partway through, every offset already
allocated during the call has been rolled back before failure is returned:
each kind's outstanding allocation count after the failed call equals its
value before the call — no partial success is observable. -/
theorem C1_batch_failure_restores_outstanding
    (pool : IDescriptorPoolModel) (layouts : List (List (E_TYPE × Nat)))
    (poolF : IDescriptorPoolModel)
    (h : createDescriptorSetsModel pool layouts = .ok (none, poolF)) :
    ∀ k : E_TYPE, poolF.outstanding k = pool.outstanding k := by
  intro k
  have hp : PINV pool poolF [] :=
    createDSGo_fail_pinv layouts pool pool [] [] (PINV_refl pool) h
  exact outstanding_of_kinv_zero (hp.2 k)

/-- Witness for C1 at a concrete input: a two-set batch on a one-descriptor
reclaiming pool; the first set's allocation succeeds, the second fails, and
the uniform-buffer outstanding count is back at its pre-call value. -/
theorem C1_witness :
    (resultPoolOf (createDescriptorSetsModel examplePool exampleLayouts)
        examplePool).outstanding .ET_UNIFORM_BUFFER =
      examplePool.outstanding .ET_UNIFORM_BUFFER :=
  C1_batch_failure_restores_outstanding examplePool exampleLayouts
    (resultPoolOf (createDescriptorSetsModel examplePool exampleLayouts)
      examplePool)
    (by rfl) .ET_UNIFORM_BUFFER

/-- C5: acquiring a set never blocks: when the cache has no FREE slot and no
RELEASED-PENDING slot whose token is satisfied, `acquireSet` returns
`invalid_index` with the cache unchanged, and
`soleUpdateOrFusedRecompute_impl` — hence `updateLocalTransforms` and
`recomputeGlobalTransforms` — returns false without recording any bind or
dispatch into the command buffer and without releasing anything. -/
theorem C5_acquire_never_blocks
    (satisfied : Nat → Bool) (fence : Nat) (ind : Bool)
    (cache : IDescriptorSetCache)
    (hfree : ∀ s ∈ cache.slots, s ≠ SlotState.free)
    (hpend : ∀ t : Nat, SlotState.releasedPending t ∈ cache.slots →
      satisfied t = false) :
    cache.acquireSet satisfied = (invalid_index, cache) ∧
    soleUpdateOrFusedRecompute_impl satisfied fence ind cache =
      { success := false, recorded := [], releases := [], cache := cache } ∧
    updateLocalTransforms satisfied fence ind cache =
      { success := false, recorded := [], releases := [], cache := cache } ∧
    recomputeGlobalTransforms satisfied fence ind cache =
      { success := false, recorded := [], releases := [], cache := cache } := by
  have hf : findSlot SlotState.isFree cache.slots = none := by
    refine findSlot_none _ (fun s hs => ?_)
    cases s with
    | free => exact absurd rfl (hfree _ hs)
    | acquired => rfl
    | releasedPending t => rfl
  have hr : findSlot (SlotState.reclaimable satisfied) cache.slots = none := by
    refine findSlot_none _ (fun s hs => ?_)
    cases s with
    | free => rfl
    | acquired => rfl
    | releasedPending t => exact hpend t hs
  have hacq : cache.acquireSet satisfied = (invalid_index, cache) := by
    unfold IDescriptorSetCache.acquireSet
    rw [hf, hr]
  have himpl : soleUpdateOrFusedRecompute_impl satisfied fence ind cache =
      { success := false, recorded := [], releases := [], cache := cache } := by
    unfold soleUpdateOrFusedRecompute_impl
    rw [hacq, if_pos rfl]
  exact ⟨hacq, himpl, himpl, himpl⟩

/-- Witness for C5 at a concrete input: a one-slot cache whose slot is
RELEASED-PENDING on an unsatisfied fence. -/
theorem C5_witness :
    IDescriptorSetCache.acquireSet (fun _ => false)
        ⟨[SlotState.releasedPending 7]⟩ =
      (invalid_index, ⟨[SlotState.releasedPending 7]⟩) ∧
    soleUpdateOrFusedRecompute_impl (fun _ => false) 3 true
        ⟨[SlotState.releasedPending 7]⟩ =
      { success := false, recorded := [], releases := [],
        cache := ⟨[SlotState.releasedPending 7]⟩ } :=
  ⟨(C5_acquire_never_blocks (fun _ => false) 3 true
      ⟨[SlotState.releasedPending 7]⟩ (by decide) (fun _ _ => rfl)).1,
   (C5_acquire_never_blocks (fun _ => false) 3 true
      ⟨[SlotState.releasedPending 7]⟩ (by decide) (fun _ _ => rfl)).2.1⟩

/-- C6: on every successful run of `soleUpdateOrFusedRecompute_impl`, the
slot acquired at the start is released exactly once before returning, with
the submission's fence as its completion token; the slot ends
RELEASED-PENDING on that fence, and a cache with no ACQUIRED slot before the
call has none after it. -/
theorem C6_success_releases_exactly_once
    (satisfied : Nat → Bool) (fence : Nat) (ind : Bool)
    (cache : IDescriptorSetCache)
    (h : (soleUpdateOrFusedRecompute_impl satisfied fence ind cache).success = true) :
    (soleUpdateOrFusedRecompute_impl satisfied fence ind cache).releases =
      [((cache.acquireSet satisfied).1, fence)] ∧
    (soleUpdateOrFusedRecompute_impl satisfied fence ind cache).cache.slots.getD
      (cache.acquireSet satisfied).1 SlotState.free =
      SlotState.releasedPending fence ∧
    ((∀ s ∈ cache.slots, s ≠ SlotState.acquired) →
      ∀ s ∈ (soleUpdateOrFusedRecompute_impl satisfied fence ind cache).cache.slots,
        s ≠ SlotState.acquired) := by
  by_cases hacq : (cache.acquireSet satisfied).1 = invalid_index
  · unfold soleUpdateOrFusedRecompute_impl at h
    rw [if_pos hacq] at h
    simp at h
  · obtain ⟨hlt, hslots⟩ := acquireSet_valid hacq
    have himpl : soleUpdateOrFusedRecompute_impl satisfied fence ind cache =
        { success := true,
          recorded := [.bindDescriptorSets, .bindComputePipeline,
            if ind then .dispatchIndirect else .dispatch],
          releases := [((cache.acquireSet satisfied).1, fence)],
          cache := (cache.acquireSet satisfied).2.releaseSet fence
            (cache.acquireSet satisfied).1 } := by
      unfold soleUpdateOrFusedRecompute_impl
      rw [if_neg hacq]
    rw [himpl]
    refine ⟨rfl, ?_, ?_⟩
    · unfold IDescriptorSetCache.releaseSet
      rw [hslots, List.set_set]
      exact getD_set_self hlt
    · intro hnoacq s hs
      unfold IDescriptorSetCache.releaseSet at hs
      rw [hslots, List.set_set] at hs
      rcases List.mem_or_eq_of_mem_set hs with hmem | heq
      · exact hnoacq s hmem
      · rw [heq]
        simp

/-- Witness for C6 at a concrete input: a one-slot cache with a FREE slot,
fence 5. -/
theorem C6_witness :
    (soleUpdateOrFusedRecompute_impl (fun _ => false) 5 false
        ⟨[SlotState.free]⟩).releases = [(0, 5)] ∧
    (soleUpdateOrFusedRecompute_impl (fun _ => false) 5 false
        ⟨[SlotState.free]⟩).cache.slots.getD 0 SlotState.free =
      SlotState.releasedPending 5 :=
  ⟨(C6_success_releases_exactly_once (fun _ => false) 5 false
      ⟨[SlotState.free]⟩ rfl).1,
   (C6_success_releases_exactly_once (fun _ => false) 5 false
      ⟨[SlotState.free]⟩ rfl).2.1⟩

/-- C10: with `count ≤ SharedBindingCount` every store of the acquire path's
write loop lands inside the two `SharedBindingCount`-sized stack arrays, so
the call produces a result; and the bound is necessary — for any larger
count the loop's store at index `SharedBindingCount` falls outside both
arrays. -/
theorem C10_acquire_write_bounds
    (satisfied : Nat → Bool) (cache : IDescriptorSetCache) (count : Nat) :
    (count ≤ SharedBindingCount → ttmAcquireSet satisfied cache count ≠ none) ∧
    (SharedBindingCount < count → ttmWriteLoop count ttmStackArrays = none) := by
  constructor
  · intro hle
    unfold ttmAcquireSet
    by_cases hacq : (cache.acquireSet satisfied).1 = invalid_index
    · rw [if_pos hacq]
      simp
    · rw [if_neg hacq]
      obtain ⟨r, hr⟩ := ttmWriteLoop_ok count ttmStackArrays
        (by simp only [ttmStackArrays, List.length_replicate]; exact hle)
        (by simp only [ttmStackArrays, List.length_replicate]; exact hle)
      rw [hr]
      simp
  · intro hgt
    exact ttmWriteLoop_overflow count ttmStackArrays
      (by simp only [ttmStackArrays, List.length_replicate]; exact hgt)

/-- Witness for C10 at concrete inputs: three writes stay in bounds on a
one-slot cache; four writes overflow the loop. -/
theorem C10_witness :
    ttmAcquireSet (fun _ => false) ⟨[SlotState.free]⟩ 3 ≠ none ∧
    ttmWriteLoop 4 ttmStackArrays = none :=
  ⟨(C10_acquire_write_bounds (fun _ => false) ⟨[SlotState.free]⟩ 3).1 (by decide),
   (C10_acquire_write_bounds (fun _ => false) ⟨[SlotState.free]⟩ 4).2 (by decide)⟩

end NblDescriptor
